import Mathlib

/-!
Shallow embedding of the Dreamer arena-automation core
(`src/sequences/opponent_scanner.py`, `src/sequences/battle_sequence.py`,
`src/text_recognition.py`, `src/config.py`).

External collaborators (window capture, pytesseract OCR, cv2 template
matching, pyautogui input) are modelled as oracle inputs: each capture/OCR
call consumes the next observation from an explicit feed, and each
template-match outcome is a boolean field of an environment record.
Machine integers are modelled as `Nat`; the Python expressions
`max(0, a - b)` coincide with `Nat` subtraction, and the few unguarded
`x -= k` statements in the source only execute at points where `x ≥ k`,
so `Nat` subtraction agrees with Python integer arithmetic there.
-/

namespace Dreamer

/-- `config.py`: `ARENA_MAX_SCROLL_ATTEMPTS = 6`. -/
def ARENA_MAX_SCROLL_ATTEMPTS : Nat := 6

/-- `config.py`: `ARENA_MAX_BATTLES = 20`. -/
def ARENA_MAX_BATTLES : Nat := 20

/-- One opponent reading, as built by
`OpponentScanner.scan_visible_opponents`: the dict
`{'power', 'y_position', 'scroll_position', 'raw_text', 'available'}`. -/
structure Reading where
  power : Nat
  y_position : Nat
  scroll_position : Nat
  raw_text : String
  available : Bool
deriving DecidableEq, Repr

/-- The comparison `sorted(..., key=lambda x: x['power'], reverse=not weakest_first)`
uses: ascending on power when `weakest_first`, descending otherwise.
Python's `sorted` is a stable sort; `List.mergeSort` is the stable sort
in Lean, so they agree as functions. -/
def powerLE (weakest_first : Bool) (a b : Reading) : Bool :=
  if weakest_first then a.power ≤ b.power else b.power ≤ a.power

/-- `BattleSequence.prepare_targets` (battle_sequence.py:65-101), the pure
list computation: filter to `available`, then (when `max_power > 0`)
filter to `power <= max_power`, then stable sort by power.
`max_power = 0` models both Python `None` and `0` (`if max_power and max_power > 0`). -/
def prepare_targets_list (opponents : List Reading) (weakest_first : Bool)
    (max_power : Nat) : List Reading :=
  let available_opponents := opponents.filter (fun o => o.available)
  let filtered :=
    if max_power > 0 then available_opponents.filter (fun o => o.power ≤ max_power)
    else available_opponents
  filtered.mergeSort (powerLE weakest_first)

/-- Battle-cycle state owned by `BattleSequence` (battle_sequence.py:38-52). -/
structure BattleState where
  sorted_targets : List Reading
  current_target_index : Nat
  battles_completed : Nat
  max_battles : Nat
  list_valid : Bool
deriving DecidableEq, Repr

/-- `BattleSequence.reset` (battle_sequence.py:58-63): clears targets,
cursor, battle count and the list-valid flag; `max_battles` is untouched. -/
def BattleState.reset (st : BattleState) : BattleState :=
  { st with sorted_targets := [], current_target_index := 0,
            battles_completed := 0, list_valid := true }

/-- `BattleSequence.prepare_targets` as the method acting on battle state:
`self.reset()` followed by storing the sorted list in `self.sorted_targets`;
returns the stored list. -/
def prepare_targets (st : BattleState) (opponents : List Reading)
    (weakest_first : Bool) (max_power : Nat) : BattleState × List Reading :=
  let targets := prepare_targets_list opponents weakest_first max_power
  ({ st.reset with sorted_targets := targets }, targets)

/-- Scanner state owned by `OpponentScanner` (opponent_scanner.py:33-51).
`current_scroll_position` models the attribute of that name that
`BattleSequence.ensure_arena_tokens` assigns on the scanner object; it is
never created by `OpponentScanner.__init__` (hence `Option`, `none` =
attribute absent) and is never read by any navigation code, which reads
`scroll_count` instead. -/
structure ScanState where
  opponents : List Reading
  scroll_count : Nat
  max_scroll_reached : Nat
  known_powers : Finset Nat
  current_scroll_position : Option Nat
deriving DecidableEq

/-- `OpponentScanner.__init__` / `OpponentScanner.reset`
(opponent_scanner.py:33-51): empty registry, scroll index 0.
`reset` does not touch `current_scroll_position` (it does not exist there). -/
def ScanState.resetScan (s : ScanState) : ScanState :=
  { s with opponents := [], scroll_count := 0, max_scroll_reached := 0,
           known_powers := ∅ }

/-- The initial scanner object, fresh from `__init__`. -/
def initScanner : ScanState :=
  ⟨[], 0, 0, ∅, none⟩

/-- `OpponentScanner.scroll_list` effect on tracked state
(opponent_scanner.py:190-195): down increments `scroll_count`,
up sets it to `max(0, scroll_count - 1)`. -/
def scrollDown (s : ScanState) : ScanState :=
  { s with scroll_count := s.scroll_count + 1 }

/-- `scroll_list(direction='up')`: `scroll_count = max(0, scroll_count - 1)`. -/
def scrollUp (s : ScanState) : ScanState :=
  { s with scroll_count := s.scroll_count - 1 }

/-- Body of the loop in `OpponentScanner.add_opponents_with_dedup`
(opponent_scanner.py:277-284): append the reading and record its power
only when the power is not yet known. -/
def addOneOpp (acc : ScanState × Nat) (opp : Reading) : ScanState × Nat :=
  if opp.power ∈ acc.1.known_powers then acc
  else ({ acc.1 with known_powers := insert opp.power acc.1.known_powers,
                     opponents := acc.1.opponents ++ [opp] }, acc.2 + 1)

/-- `OpponentScanner.add_opponents_with_dedup` (opponent_scanner.py:267-290):
fold the dedup step over the new readings; when anything was added,
`max_scroll_reached` is set to the current `scroll_count`.
Returns the new state and `added_count`. -/
def add_opponents_with_dedup (s : ScanState) (new_opponents : List Reading) :
    ScanState × Nat :=
  let r := new_opponents.foldl addOneOpp (s, 0)
  if r.2 > 0 then ({ r.1 with max_scroll_reached := r.1.scroll_count }, r.2)
  else r

/-- One positioned OCR token from
`TextRecognizer.extract_text_with_positions`: only the `text` and `y`
fields are consulted by `find_all_team_powers`. -/
structure PosText where
  text : List Char
  y : Nat
deriving DecidableEq

/-- One entry of the list returned by
`TextRecognizer.find_all_team_powers`:
`{'power', 'y_position', 'raw_text'}`. -/
structure PowerReading where
  power : Nat
  y_position : Nat
  raw_text : List Char
deriving DecidableEq

/-- Python's `[:\.\s]+` character class (colon, period, whitespace). -/
def sepChar (c : Char) : Bool :=
  c == ':' || c == '.' || c == ' ' || c == '\t' || c == '\n' || c == '\r' ||
  c == '\x0B' || c == '\x0C'

/-- Python's `[\d,\.]` character class. -/
def numChar (c : Char) : Bool :=
  c.isDigit || c == ',' || c == '.'

/-- Try to match the mandatory core of the team-power regular expression
`(?:[Tt]?e?a?m?\s*)?[Pp]ower[:\.\s]+(\d[\d,\.]+)` (with `re.IGNORECASE`)
at the start of `cs`: the word "power" in any case, at least one
separator, then a digit followed by at least one more `[\d,\.]` character.
The separator class contains no digits, so its greedy run followed by the
digit test is exactly the regex's backtracking behaviour. Returns
`(group0, group1, rest)` where `group0` is the consumed text from the
"power" word on (the optional `Team`-style prefix, which only lengthens
the diagnostic `group(0)` and never changes `group(1)` or which matches
are found, is omitted), `group1` is the captured number text, and `rest`
is the input after the match. -/
def matchPowerAt (cs : List Char) : Option (List Char × List Char × List Char) :=
  match cs with
  | p :: o :: w :: e :: r :: rest =>
    if p.toLower == 'p' && o.toLower == 'o' && w.toLower == 'w' &&
       e.toLower == 'e' && r.toLower == 'r' then
      let sep := rest.takeWhile sepChar
      if sep.isEmpty then none
      else
        match rest.dropWhile sepChar with
        | [] => none
        | d :: tail =>
          if d.isDigit then
            let numTail := tail.takeWhile numChar
            if numTail.isEmpty then none
            else
              some ([p, o, w, e, r] ++ sep ++ (d :: numTail), d :: numTail,
                    tail.dropWhile numChar)
          else none
    else none
  | _ => none

/-- `re.finditer` over the team-power pattern: scan left to right,
emitting non-overlapping matches and resuming after each match.
The fuel (initially the text length) only bounds the structural
recursion; every step consumes at least one character, so the initial
fuel is never exhausted early. -/
def finditerPowerAux : Nat → List Char → List (List Char × List Char)
  | 0, _ => []
  | fuel + 1, cs =>
    match matchPowerAt cs with
    | some (g0, g1, rest) => (g0, g1) :: finditerPowerAux fuel rest
    | none =>
      match cs with
      | [] => []
      | _ :: t => finditerPowerAux fuel t

/-- All matches of the team-power pattern in `cs`, left to right. -/
def finditer_power (cs : List Char) : List (List Char × List Char) :=
  finditerPowerAux cs.length cs

/-- Python `text.replace(',', '').replace('.', '')`. -/
def stripPySeps (cs : List Char) : List Char :=
  cs.filter (fun c => !(c == ',') && !(c == '.'))

/-- Python `int(...)` on a non-empty digit string. -/
def digitsToNat (cs : List Char) : Nat :=
  cs.foldl (fun n c => n * 10 + (c.toNat - 48)) 0

/-- Processing of one primary regex match in
`TextRecognizer.find_all_team_powers` (text_recognition.py:221-271):
reject parses below 1,000, then resolve a y position by (1) first
positioned token whose cleaned text contains the digit string and whose
y is unused, (2) first token containing `Power`/`ower` at an unused y,
(3) the order-based estimate `len(powers) * 115 + 50`; record the y and
the power and append the reading.
The accumulator is `(powers, used_y_positions, found_powers)`. -/
def primaryStep (results : List PosText)
    (acc : List PowerReading × Finset Nat × Finset Nat)
    (m : List Char × List Char) :
    List PowerReading × Finset Nat × Finset Nat :=
  let (powers, used, found) := acc
  let power_str := stripPySeps m.2
  let power := digitsToNat power_str
  if power < 1000 then acc
  else
    let y1 := (results.find? (fun r =>
      decide (power_str <:+: stripPySeps r.text) && !(decide (r.y ∈ used)))).map
      (fun r => r.y)
    let y2 :=
      match y1 with
      | some y => some y
      | none => (results.find? (fun r =>
          (decide ("Power".toList <:+: r.text) || decide ("ower".toList <:+: r.text)) &&
          !(decide (r.y ∈ used)))).map (fun r => r.y)
    let y_pos :=
      match y2 with
      | some y => y
      | none => powers.length * 115 + 50
    (powers ++ [⟨power, y_pos, m.1⟩], insert y_pos used, insert power found)

/-- Processing of one positioned token in the fallback pass of
`find_all_team_powers` (text_recognition.py:273-296): a token whose
cleaned text is entirely 4-6 digits (`re.match(r'^\d{4,6}$', text)`)
with value in `[1000, 999999]`, not already found, and not within 20
pixels of an already-used y position, is appended with the
`'[fallback] '` diagnostic marker. -/
def fallbackStep (acc : List PowerReading × Finset Nat × Finset Nat)
    (r : PosText) : List PowerReading × Finset Nat × Finset Nat :=
  let (powers, used, found) := acc
  let text := stripPySeps r.text
  if 4 ≤ text.length ∧ text.length ≤ 6 ∧ text.all (fun c => c.isDigit) then
    let power := digitsToNat text
    if 1000 ≤ power ∧ power ≤ 999999 ∧ power ∉ found then
      let too_close := decide (∃ u ∈ used, Nat.dist r.y u < 20)
      if too_close then acc
      else
        (powers ++ [⟨power, r.y, ("[fallback] ".toList) ++ r.text⟩],
         insert r.y used, insert power found)
    else acc
  else acc

/-- `TextRecognizer.find_all_team_powers` (text_recognition.py:191-297).
`full_text` is the block transcription from `extract_text` and `results`
the positioned tokens from `extract_text_with_positions` — both raw OCR
outputs, supplied as oracle inputs. -/
def find_all_team_powers (full_text : List Char) (results : List PosText) :
    List PowerReading :=
  let matches_found := finditer_power full_text
  let afterPrimary :=
    matches_found.foldl (primaryStep results)
      (([] : List PowerReading), (∅ : Finset Nat), (∅ : Finset Nat))
  (results.foldl fallbackStep afterPrimary).1

/-- A captured frame, abstracted to its dimensions and the per-pixel
outcome of the HSV orange-mask classification in
`OpponentScanner.check_battle_available` (opponent_scanner.py:146-149):
`orange y x = true` iff the pixel at row `y`, column `x` has hue in
`[10, 35]` and saturation `> 150` after `cv2.cvtColor(..., COLOR_BGR2HSV)`. -/
structure Frame where
  height : Nat
  width : Nat
  orange : Nat → Nat → Bool

/-- `OpponentScanner.check_battle_available` (opponent_scanner.py:100-157).
`button_x = int(width * ARENA_BATTLE_BUTTON_X)` with
`ARENA_BATTLE_BUTTON_X = 0.90` is modelled as `width * 9 / 10`;
`max(0, a - b)` is `Nat` subtraction; the numpy slice
`frame[y_start:y_end, x_start:x_end]` is empty exactly when
`y_end ≤ y_start` or `x_end ≤ x_start` (both ends are already clamped to
the frame), and in that case the source returns `True`
("Assume available if we can't check"). The float comparison
`orange_ratio > 0.15` is modelled exactly as `20 * count > 3 * total`. -/
def check_battle_available (frame : Frame) (y_position : Nat) : Bool :=
  let button_x := frame.width * 9 / 10
  let sample_width := 40
  let x_start := button_x - sample_width / 2
  let x_end := min frame.width (button_x + sample_width / 2)
  let y_start := y_position - 80
  let y_end := min frame.height (y_position + 20)
  if y_end ≤ y_start ∨ x_end ≤ x_start then true
  else
    let orange_pixel_count :=
      ((List.range' y_start (y_end - y_start)).map (fun y =>
        ((List.range' x_start (x_end - x_start)).filter (fun x =>
          frame.orange y x)).length)).sum
    let total_pixels := (y_end - y_start) * (x_end - x_start)
    20 * orange_pixel_count > 3 * total_pixels

/-- Template-match and OCR outcomes observed during one call of
`BattleSequence.attack_next_target`; each field is the result of one
external collaborator call (template matcher / text extractor / capture). -/
structure AttackEnv where
  /-- `find_template(TEMPLATE_EMPTY_ATOKENS, threshold=0.98)` found. -/
  empty_tokens_found : Bool
  /-- `find_template(TEMPLATE_FREE_ATOKENS, threshold=0.8)` found. -/
  free_tokens_found : Bool
  /-- `verify_opponent_at_position` after direct navigation. -/
  verify1 : Bool
  /-- `verify_opponent_at_position` after one corrective scroll down. -/
  verify2 : Bool
  /-- `verify_opponent_at_position` after two corrective scrolls up. -/
  verify3 : Bool
  /-- `find_opponent_y_position` result (only consulted when the stored
  y position is absent). -/
  find_y : Option Nat
  /-- The frame captured inside `click_battle_button`. -/
  frame : Frame
  /-- `find_and_click(TEMPLATE_START_FIGHT)` succeeded. -/
  start_fight_found : Bool
  /-- The bounded poll for `TEMPLATE_BATTLE_COMPLETE` succeeded within
  the timeout. -/
  battle_complete_found : Bool
  /-- One of the ≤ 5 attempts on `TEMPLATE_RETURN_ARENA` succeeded. -/
  return_arena_found : Bool

/-- `BattleSequence.ensure_arena_tokens` (battle_sequence.py:236-287).
On the free-refill path the source executes
`self.scanner.current_scroll_position = 0` — it assigns a brand-new
attribute on the scanner and leaves `scroll_count` (the index navigation
reads) untouched. -/
def ensure_arena_tokens (sc : ScanState) (env : AttackEnv) :
    String × ScanState :=
  if ¬ env.empty_tokens_found then ("ok", sc)
  else if env.free_tokens_found then
    ("refilled", { sc with current_scroll_position := some 0 })
  else ("no_tokens", sc)

/-- `BattleSequence.navigate_to_target` (battle_sequence.py:116-164):
scroll step-by-step to the target's recorded scroll position, then
verify; on failure try one scroll down, then two up, re-verifying, and
finally return one scroll down (reporting failure). -/
def navigate_to_target (sc : ScanState) (target : Reading) (env : AttackEnv) :
    Bool × ScanState :=
  let target_scroll := target.scroll_position
  let sc1 :=
    if target_scroll < sc.scroll_count then
      (scrollUp)^[sc.scroll_count - target_scroll] sc
    else (scrollDown)^[target_scroll - sc.scroll_count] sc
  if env.verify1 then (true, sc1)
  else
    let sc2 := scrollDown sc1
    if env.verify2 then (true, sc2)
    else
      let sc3 := scrollUp (scrollUp sc2)
      if env.verify3 then (true, sc3)
      else (false, scrollDown sc3)

/-- `BattleSequence.click_battle_button` (battle_sequence.py:166-214):
use the stored y position (falling back to a fresh OCR pass), fail when
none is found, then re-check availability by pixel sampling and fail when
the button no longer reads as available. -/
def click_battle_button (stored_y_position : Option Nat) (env : AttackEnv) :
    Bool :=
  match (match stored_y_position with
         | some y => some y
         | none => env.find_y) with
  | none => false
  | some y_pos => check_battle_available env.frame y_pos

/-- `BattleSequence.attack_next_target` (battle_sequence.py:370-449). -/
def attack_next_target (st : BattleState) (sc : ScanState) (env : AttackEnv) :
    String × BattleState × ScanState :=
  if ¬ st.list_valid then ("list_invalid", st, sc)
  else if st.sorted_targets.length ≤ st.current_target_index then
    ("no_more", st, sc)
  else if st.max_battles ≤ st.battles_completed then ("max_reached", st, sc)
  else
    let tok := ensure_arena_tokens sc env
    if tok.1 = "no_tokens" then ("no_tokens", st, tok.2)
    else
      let sc := tok.2
      let target := st.sorted_targets.getD st.current_target_index
        ⟨0, 0, 0, "", false⟩
      let nav := navigate_to_target sc target env
      if ¬ nav.1 then
        ("skip", { st with current_target_index := st.current_target_index + 1 },
         nav.2)
      else
        let sc := nav.2
        if ¬ click_battle_button (some target.y_position) env then
          ("skip", { st with current_target_index := st.current_target_index + 1 },
           sc)
        else if ¬ env.start_fight_found then
          ("skip", { st with current_target_index := st.current_target_index + 1 },
           sc)
        else if ¬ env.battle_complete_found then
          ("skip", { st with current_target_index := st.current_target_index + 1 },
           sc)
        else if ¬ env.return_arena_found then
          ("skip", { st with current_target_index := st.current_target_index + 1 },
           sc)
        else
          ("success",
           { st with current_target_index := st.current_target_index + 1,
                     battles_completed := st.battles_completed + 1 },
           { sc with scroll_count := 0 })

/-- One capture-and-OCR observation, consumed by each call of
`OpponentScanner.scan_visible_opponents`: the `find_all_team_powers`
output for the cropped region, the captured frame (for the availability
pixel check), and the pixel offset `roi_y` of the OCR region within the
frame (computed in the source from the frame height and the configured
region percentages). -/
structure ScanObs where
  items : List PowerReading
  frame : Frame
  roi_y : Nat

/-- Pop the next observation from the feed; an exhausted feed behaves
like a capture whose OCR finds nothing. -/
def nextObs : List ScanObs → ScanObs × List ScanObs
  | [] => (⟨[], ⟨0, 0, fun _ _ => false⟩, 0⟩, [])
  | o :: rest => (o, rest)

/-- `OpponentScanner.scan_visible_opponents` (opponent_scanner.py:227-265):
for the `i`-th OCR reading, the row position is
`(p['y_position'] or (i * 100 + 50)) + roi_y` (Python `or`: a `0`
position falls back to the order estimate), availability comes from the
pixel check on the full frame, and the reading is tagged with the
current `scroll_count`. -/
def scan_visible_opponents (sc : ScanState) (obs : ScanObs) : List Reading :=
  obs.items.enum.map (fun ip =>
    let y_pos := (if ip.2.y_position = 0 then ip.1 * 100 + 50
                  else ip.2.y_position) + obs.roi_y
    { power := ip.2.power, y_position := y_pos,
      scroll_position := sc.scroll_count,
      raw_text := String.mk ip.2.raw_text,
      available := check_battle_available obs.frame y_pos })

/-- The set of powers of a list of readings
(`set(opp['power'] for opp in visible)`). -/
def powersOf (l : List Reading) : Finset Nat :=
  (l.map (fun o => o.power)).toFinset

/-- The scroll-and-scan loop of `OpponentScanner.run_full_scan`
(opponent_scanner.py:322-365), parameters
`(fuel, state, last_bottom_powers, consecutive_empty_scans, feed)`.
The `while self.scroll_count < ARENA_MAX_SCROLL_ATTEMPTS` loop is
written with structural fuel; a fuel-exhausted exit returns the state
exactly like a failed guard, and `scanLoop_fuel_irrelevant` below shows
that any fuel with `fuel + scroll_count ≥ ARENA_MAX_SCROLL_ATTEMPTS`
(in particular the `ARENA_MAX_SCROLL_ATTEMPTS` used by `run_full_scan`)
gives the guard-only behaviour, every continuing iteration raising
`scroll_count` by exactly one. -/
def scanLoopStep
    (recur : ScanState → Finset Nat → Nat → List ScanObs → ScanState × List ScanObs)
    (st : ScanState) (last_bottom_powers : Finset Nat)
    (consecutive_empty_scans : Nat) (feed : List ScanObs) :
    ScanState × List ScanObs :=
  if st.scroll_count < ARENA_MAX_SCROLL_ATTEMPTS then
    let st1 := scrollDown st
    let ob := nextObs feed
    let visible := scan_visible_opponents st1 ob.1
    let current_powers := powersOf visible
    if visible.isEmpty then
      let c := consecutive_empty_scans + 1
      recur st1 last_bottom_powers (if 2 ≤ c then 0 else c) ob.2
    else if last_bottom_powers ≠ ∅ ∧ current_powers = last_bottom_powers then
      ({ st1 with scroll_count := st1.scroll_count - 1 }, ob.2)
    else
      let r := add_opponents_with_dedup st1 visible
      if r.2 = 0 then
        let st3 := scrollDown r.1
        let ob2 := nextObs ob.2
        let vis2 := scan_visible_opponents st3 ob2.1
        let confirm_powers := powersOf vis2
        if confirm_powers = current_powers then
          ({ st3 with scroll_count := st3.scroll_count - 2 }, ob2.2)
        else
          let st4 := { st3 with scroll_count := st3.scroll_count - 1 }
          recur (add_opponents_with_dedup st4 vis2).1 confirm_powers 0 ob2.2
      else recur r.1 current_powers 0 ob.2
  else (st, feed)

/-- The fuel recursion over `scanLoopStep`. -/
def scanLoop : Nat → ScanState → Finset Nat → Nat → List ScanObs →
    ScanState × List ScanObs
  | 0, st, _, _, feed => (st, feed)
  | fuel + 1, st, last_bottom_powers, consecutive_empty_scans, feed =>
    scanLoopStep (scanLoop fuel) st last_bottom_powers consecutive_empty_scans
      feed

/-- `OpponentScanner.run_full_scan` (opponent_scanner.py:292-386):
reset, full scan at the top, the scroll-and-scan loop, clamp the scroll
index at zero, record `max_scroll_reached`, scroll up
`ARENA_MAX_SCROLL_ATTEMPTS` times to guarantee return to the true top,
and reset the tracked scroll index to 0. Returns the final scanner state
and the unconsumed feed. -/
def run_full_scan (sc : ScanState) (feed : List ScanObs) :
    ScanState × List ScanObs :=
  let s0 := sc.resetScan
  let ob := nextObs feed
  let visible := scan_visible_opponents s0 ob.1
  let s1 := (add_opponents_with_dedup s0 visible).1
  let lr := scanLoop ARENA_MAX_SCROLL_ATTEMPTS s1 ∅ 0 ob.2
  let s3 := { lr.1 with scroll_count := max 0 lr.1.scroll_count }
  let s4 := { s3 with max_scroll_reached := s3.scroll_count }
  let s5 := (scrollUp)^[ARENA_MAX_SCROLL_ATTEMPTS] s4
  ({ s5 with scroll_count := 0 }, lr.2)

/-- `BattleSequence.verify_list_unchanged` (battle_sequence.py:345-368):
`current_powers` is the live OCR sample (`get_current_visible_powers`),
passed here as an oracle input; a non-empty intersection with the
expected set keeps the state untouched and returns `True`, an empty one
sets `list_valid = False` and returns `False`. -/
def verify_list_unchanged (st : BattleState) (current_powers : Finset Nat)
    (expected_powers_at_position : Finset Nat) : BattleState × Bool :=
  let overlap := current_powers ∩ expected_powers_at_position
  if overlap.Nonempty then (st, true)
  else ({ st with list_valid := false }, false)

/-- Well-formedness of the scanner's dedup bookkeeping, established by
`reset` and maintained by `add_opponents_with_dedup`: the registry holds
at most one reading per power, and `known_powers` is exactly the set of
registered powers. -/
def ScanInv (s : ScanState) : Prop :=
  (s.opponents.map (fun o => o.power)).Nodup ∧
  ∀ p : Nat, p ∈ s.known_powers ↔ p ∈ s.opponents.map (fun o => o.power)

/-- An available reading with the given power (concrete test fixture). -/
def mkReading (p : Nat) : Reading :=
  ⟨p, 0, 0, "", true⟩

/-- An OCR power reading with the given power and y position
(concrete test fixture). -/
def mkItem (p y : Nat) : PowerReading :=
  ⟨p, y, []⟩

/-- A frame on which every pixel classifies as orange, so every
availability check inside it succeeds (concrete test fixture). -/
def orangeFrame : Frame :=
  ⟨1000, 1000, fun _ _ => true⟩

/-- A tiny frame on which no pixel is orange; rows inferred far below it
make the availability sample region empty (concrete test fixture). -/
def tinyFrame : Frame :=
  ⟨30, 20, fun _ _ => false⟩

/-- A synthetic bottom-band observation carrying the given powers, each
at row 500 of `tinyFrame` (concrete test fixture). -/
def bandObs (ps : List Nat) : ScanObs :=
  ⟨ps.map (fun p => mkItem p 500), tinyFrame, 0⟩

/-- A template-matcher environment in which every template search fails
(concrete test fixture). -/
def allFailEnv : AttackEnv :=
  { empty_tokens_found := false, free_tokens_found := false,
    verify1 := false, verify2 := false, verify3 := false,
    find_y := none, frame := orangeFrame,
    start_fight_found := false, battle_complete_found := false,
    return_arena_found := false }

/-! ## Helper lemmas -/

theorem powerLE_trans (wf : Bool) (a b c : Reading)
    (h1 : powerLE wf a b = true) (h2 : powerLE wf b c = true) :
    powerLE wf a c = true := by
  cases wf <;> simp [powerLE] at h1 h2 ⊢ <;> omega

theorem powerLE_total (wf : Bool) (a b : Reading) :
    powerLE wf a b || powerLE wf b a := by
  cases wf <;> simp [powerLE] <;> omega

/-- A stable sort keeps the relative order of any class of mutually
comparable elements: filtering the sorted list by a predicate whose
satisfying elements are pairwise `powerLE`-related gives the same list
as filtering the input. -/
theorem mergeSort_filter_key (l : List Reading) (wf : Bool) (q : Reading → Bool)
    (hq : ∀ a b : Reading, q a = true → q b = true → powerLE wf a b = true) :
    (l.mergeSort (powerLE wf)).filter q = l.filter q := by
  have hpw : (l.filter q).Pairwise (fun a b => powerLE wf a b = true) := by
    apply List.pairwise_of_forall_mem_list
    intro a ha b hb
    exact hq a b (List.of_mem_filter ha) (List.of_mem_filter hb)
  have hsub : List.Sublist (l.filter q) (l.mergeSort (powerLE wf)) :=
    List.sublist_mergeSort (powerLE_trans wf) (powerLE_total wf) hpw
      (List.filter_sublist l)
  have hsub2 : List.Sublist (l.filter q) ((l.mergeSort (powerLE wf)).filter q) := by
    have h1 : (l.filter q).filter q = l.filter q := by
      rw [List.filter_filter]
      apply List.filter_congr
      intro a _
      exact Bool.and_self _
    have h2 := hsub.filter q
    rwa [h1] at h2
  have hlen : ((l.mergeSort (powerLE wf)).filter q).length = (l.filter q).length :=
    ((l.mergeSort_perm (powerLE wf)).filter q).length_eq
  exact (hsub2.eq_of_length hlen.symm).symm

/-- The two filter stages of `prepare_targets` fused into one predicate. -/
theorem prepare_targets_filtered_eq (opponents : List Reading) (mp : Nat) :
    (if 0 < mp then
      (opponents.filter (fun o => o.available)).filter (fun o => decide (o.power ≤ mp))
     else opponents.filter (fun o => o.available))
    = opponents.filter (fun o =>
        o.available && (if 0 < mp then decide (o.power ≤ mp) else true)) := by
  split_ifs with h
  · rw [List.filter_filter]
    apply List.filter_congr
    intro o _
    exact Bool.and_comm _ _
  · apply List.filter_congr
    intro o _
    simp

theorem prepare_targets_list_eq (o : List Reading) (wf : Bool) (mp : Nat) :
    prepare_targets_list o wf mp
    = (o.filter (fun r =>
        r.available && (if 0 < mp then decide (r.power ≤ mp) else true))).mergeSort
        (powerLE wf) := by
  simp only [prepare_targets_list]
  rw [← prepare_targets_filtered_eq]

theorem countP_power_eq_count_map (l : List Reading) (p : Nat) :
    l.countP (fun o => o.power == p) = (l.map (fun o => o.power)).count p := by
  rw [List.count, List.countP_map]
  rfl

/-- One fresh step of the dedup fold preserves the scanner invariant. -/
theorem addOneOpp_inv {s : ScanState} {a : Reading} (h : ScanInv s)
    (ha : a.power ∉ s.known_powers) :
    ScanInv { s with known_powers := insert a.power s.known_powers,
                     opponents := s.opponents ++ [a] } := by
  obtain ⟨hnd, hiff⟩ := h
  have hnotmem : a.power ∉ s.opponents.map (fun o => o.power) :=
    fun hmem => ha ((hiff a.power).mpr hmem)
  constructor
  · simp only [List.map_append, List.map_cons, List.map_nil]
    simp [List.nodup_append, hnd, hnotmem]
  · intro p
    simp only [List.map_append, List.map_cons, List.map_nil, Finset.mem_insert,
      List.mem_append, List.mem_cons, List.not_mem_nil, or_false, hiff p]
    tauto

/-- The dedup fold preserves the invariant, keeps every already-known
power known, and never changes the number of registered readings of an
already-known power. -/
theorem foldl_addOneOpp_spec (l : List Reading) :
    ∀ (s : ScanState) (n : Nat), ScanInv s →
      ScanInv (l.foldl addOneOpp (s, n)).1
      ∧ ∀ p, p ∈ s.known_powers →
          p ∈ (l.foldl addOneOpp (s, n)).1.known_powers
          ∧ (l.foldl addOneOpp (s, n)).1.opponents.countP (fun o => o.power == p)
            = s.opponents.countP (fun o => o.power == p) := by
  induction l with
  | nil => exact fun s n h => ⟨h, fun p hp => ⟨hp, rfl⟩⟩
  | cons a t ih =>
    intro s n h
    simp only [List.foldl_cons]
    by_cases ha : a.power ∈ s.known_powers
    · have : addOneOpp (s, n) a = (s, n) := by simp [addOneOpp, ha]
      rw [this]
      exact ih s n h
    · have hstep : addOneOpp (s, n) a
        = ({ s with known_powers := insert a.power s.known_powers,
                    opponents := s.opponents ++ [a] }, n + 1) := by
        simp [addOneOpp, ha]
      rw [hstep]
      have hinv' := addOneOpp_inv h ha
      refine ⟨(ih _ _ hinv').1, fun p hp => ?_⟩
      have hp' : p ∈ (insert a.power s.known_powers : Finset Nat) :=
        Finset.mem_insert_of_mem hp
      obtain ⟨hmem, hcnt⟩ := (ih _ _ hinv').2 p hp'
      refine ⟨hmem, ?_⟩
      rw [hcnt]
      have hne : (a.power == p) = false := by
        simp only [beq_eq_false_iff_ne, ne_eq]
        exact fun he => ha (he ▸ hp)
      simp [List.countP_append, List.countP_cons, hne]

/-- `add_opponents_with_dedup` only adds a `max_scroll_reached` update on
top of the dedup fold; registry and known-powers set coincide. -/
theorem add_opponents_with_dedup_fields (s : ScanState) (l : List Reading) :
    (add_opponents_with_dedup s l).1.opponents = (l.foldl addOneOpp (s, 0)).1.opponents
    ∧ (add_opponents_with_dedup s l).1.known_powers
      = (l.foldl addOneOpp (s, 0)).1.known_powers := by
  simp only [add_opponents_with_dedup]
  split_ifs <;> exact ⟨rfl, rfl⟩

/-- `ScanInv` ignores `max_scroll_reached` and the scroll counters. -/
theorem ScanInv_of_fields {s t : ScanState}
    (hop : s.opponents = t.opponents) (hkn : s.known_powers = t.known_powers)
    (h : ScanInv t) : ScanInv s := by
  obtain ⟨h1, h2⟩ := h
  exact ⟨hop ▸ h1, fun p => by rw [hop, hkn]; exact h2 p⟩

/-- Every successful match of the team-power pattern starts with the
letter `p` (in either case): its `group(0)` head is never `'['`. -/
theorem matchPowerAt_head {cs g0 g1 rest : List Char}
    (h : matchPowerAt cs = some (g0, g1, rest)) :
    ∃ c t, g0 = c :: t ∧ c.toLower = 'p' := by
  rcases cs with _ | ⟨p, cs⟩
  · simp [matchPowerAt] at h
  rcases cs with _ | ⟨o, cs⟩
  · simp [matchPowerAt] at h
  rcases cs with _ | ⟨w, cs⟩
  · simp [matchPowerAt] at h
  rcases cs with _ | ⟨e, cs⟩
  · simp [matchPowerAt] at h
  rcases cs with _ | ⟨r, cs⟩
  · simp [matchPowerAt] at h
  simp only [matchPowerAt] at h
  by_cases h1 : (p.toLower == 'p' && o.toLower == 'o' && w.toLower == 'w' &&
      e.toLower == 'e' && r.toLower == 'r') = true
  case neg => rw [if_neg h1] at h; exact absurd h (by simp)
  rw [if_pos h1] at h
  by_cases h2 : (List.takeWhile sepChar cs).isEmpty = true
  case pos => rw [if_pos h2] at h; exact absurd h (by simp)
  rw [if_neg h2] at h
  rcases hdrop : List.dropWhile sepChar cs with _ | ⟨d, tail⟩ <;> rw [hdrop] at h <;>
    dsimp only at h
  · exact absurd h (by simp)
  by_cases h3 : d.isDigit = true
  case neg => rw [if_neg h3] at h; exact absurd h (by simp)
  rw [if_pos h3] at h
  by_cases h4 : (List.takeWhile numChar tail).isEmpty = true
  case pos => rw [if_pos h4] at h; exact absurd h (by simp)
  rw [if_neg h4] at h
  simp only [Option.some.injEq, Prod.mk.injEq, List.cons_append, List.nil_append] at h
  refine ⟨p, _, h.1.symm, ?_⟩
  simp only [Bool.and_eq_true, beq_iff_eq] at h1
  exact h1.1.1.1.1

/-- All matches produced by the finditer scan have a `group(0)` whose
first character lowercases to `p`. -/
theorem finditerPowerAux_head (fuel : Nat) :
    ∀ (cs : List Char) (m : List Char × List Char),
      m ∈ finditerPowerAux fuel cs → ∃ c t, m.1 = c :: t ∧ c.toLower = 'p' := by
  induction fuel with
  | zero => intro cs m hm; simp [finditerPowerAux] at hm
  | succ f ih =>
    intro cs m hm
    simp only [finditerPowerAux] at hm
    rcases hmc : matchPowerAt cs with _ | ⟨g0, g1, rest⟩ <;> rw [hmc] at hm
    · rcases cs with _ | ⟨c, t⟩
      · simp at hm
      · exact ih t m hm
    · cases hm with
      | head => exact matchPowerAt_head hmc
      | tail b hm => exact ih rest m hm

/-- One primary-match step either keeps the accumulated readings or
appends a reading whose power passed the `≥ 1000` noise filter and whose
raw text is the match's `group(0)`. -/
theorem primaryStep_mem {results : List PosText}
    {acc : List PowerReading × Finset Nat × Finset Nat}
    {m : List Char × List Char} {r : PowerReading}
    (hr : r ∈ (primaryStep results acc m).1) :
    r ∈ acc.1 ∨ (1000 ≤ r.power ∧ r.raw_text = m.1) := by
  obtain ⟨pws, used, found⟩ := acc
  simp only [primaryStep] at hr
  split_ifs at hr with h1
  · exact Or.inl hr
  · simp only [List.mem_append, List.mem_singleton] at hr
    rcases hr with hr | hr
    · exact Or.inl hr
    · right
      rw [hr]
      exact ⟨Nat.le_of_not_lt h1, rfl⟩

/-- One fallback step either keeps the accumulated readings or appends a
reading with power in `[1000, 999999]` and the `'[fallback] '` marker. -/
theorem fallbackStep_mem {acc : List PowerReading × Finset Nat × Finset Nat}
    {t : PosText} {r : PowerReading}
    (hr : r ∈ (fallbackStep acc t).1) :
    r ∈ acc.1 ∨ (1000 ≤ r.power ∧ r.power ≤ 999999 ∧
      r.raw_text = ("[fallback] ".toList) ++ t.text) := by
  obtain ⟨pws, used, found⟩ := acc
  simp only [fallbackStep] at hr
  split_ifs at hr with h1 h2 h3
  · exact Or.inl hr
  · simp only [List.mem_append, List.mem_singleton] at hr
    rcases hr with hr | hr
    · exact Or.inl hr
    · right
      rw [hr]
      exact ⟨h2.1, h2.2.1, rfl⟩
  · exact Or.inl hr
  · exact Or.inl hr

/-- The primary fold preserves the power bounds, given that every match
head lowercases to `p`. -/
theorem foldl_primaryStep_good (results : List PosText)
    (ms : List (List Char × List Char)) :
    ∀ (acc : List PowerReading × Finset Nat × Finset Nat),
      (∀ m ∈ ms, ∃ c t, m.1 = c :: t ∧ c.toLower = 'p') →
      (∀ r ∈ acc.1, 1000 ≤ r.power ∧
        (r.raw_text.head? = some '[' → r.power ≤ 999999)) →
      ∀ r ∈ (ms.foldl (primaryStep results) acc).1,
        1000 ≤ r.power ∧ (r.raw_text.head? = some '[' → r.power ≤ 999999) := by
  induction ms with
  | nil => exact fun acc _ hacc => hacc
  | cons m ms ih =>
    intro acc hms hacc r hr
    refine ih _ (fun m' hm' => hms m' (List.mem_cons_of_mem _ hm')) ?_ r hr
    intro r' hr'
    rcases primaryStep_mem hr' with h | ⟨hp, hraw⟩
    · exact hacc r' h
    · obtain ⟨c, t, hct, hc⟩ := hms m (List.mem_cons_self _ _)
      refine ⟨hp, fun hhead => ?_⟩
      rw [hraw, hct] at hhead
      simp only [List.head?_cons, Option.some.injEq] at hhead
      rw [hhead] at hc
      exact absurd hc (by decide)

/-- The fallback fold preserves the power bounds. -/
theorem foldl_fallbackStep_good (ts : List PosText) :
    ∀ (acc : List PowerReading × Finset Nat × Finset Nat),
      (∀ r ∈ acc.1, 1000 ≤ r.power ∧
        (r.raw_text.head? = some '[' → r.power ≤ 999999)) →
      ∀ r ∈ (ts.foldl fallbackStep acc).1,
        1000 ≤ r.power ∧ (r.raw_text.head? = some '[' → r.power ≤ 999999) := by
  induction ts with
  | nil => exact fun acc hacc => hacc
  | cons t ts ih =>
    intro acc hacc r hr
    refine ih _ ?_ r hr
    intro r' hr'
    rcases fallbackStep_mem hr' with h | ⟨h1, h2, _⟩
    · exact hacc r' h
    · exact ⟨h1, fun _ => h2⟩

theorem foldl_addOneOpp_scroll_count (l : List Reading) :
    ∀ acc : ScanState × Nat, (l.foldl addOneOpp acc).1.scroll_count
      = acc.1.scroll_count := by
  induction l with
  | nil => intro acc; rfl
  | cons a t ih =>
    intro acc
    rw [List.foldl_cons, ih]
    simp only [addOneOpp]
    split_ifs <;> rfl

theorem add_opponents_with_dedup_scroll_count (s : ScanState) (l : List Reading) :
    (add_opponents_with_dedup s l).1.scroll_count = s.scroll_count := by
  simp only [add_opponents_with_dedup]
  split_ifs <;> exact foldl_addOneOpp_scroll_count l (s, 0)

/-- One unit of fuel beyond `ARENA_MAX_SCROLL_ATTEMPTS - scroll_count`
is never consumed: every continuing iteration of the scan loop raises
`scroll_count` by exactly one, so the `while scroll_count < ceiling`
guard fails before the fuel runs out. -/
theorem scanLoop_succ_stable (f : Nat) :
    ∀ (st : ScanState) (last : Finset Nat) (c : Nat) (feed : List ScanObs),
      ARENA_MAX_SCROLL_ATTEMPTS ≤ f + st.scroll_count →
      scanLoop (f + 1) st last c feed = scanLoop f st last c feed := by
  induction f with
  | zero =>
    intro st last c feed h
    show scanLoopStep (scanLoop 0) st last c feed = (st, feed)
    simp only [scanLoopStep]
    rw [if_neg (by omega)]
  | succ f ih =>
    intro st last c feed h
    show scanLoopStep (scanLoop (f + 1)) st last c feed
      = scanLoopStep (scanLoop f) st last c feed
    by_cases hg : st.scroll_count < ARENA_MAX_SCROLL_ATTEMPTS
    case neg =>
      simp only [scanLoopStep]
      rw [if_neg hg, if_neg hg]
    simp only [scanLoopStep]
    rw [if_pos hg, if_pos hg]
    split_ifs <;>
      first
        | rfl
        | (apply ih
           simp [scrollDown, add_opponents_with_dedup_scroll_count]
           omega)

theorem scanLoop_add_fuel (k : Nat) :
    ∀ (f : Nat) (st : ScanState) (last : Finset Nat) (c : Nat)
      (feed : List ScanObs),
      ARENA_MAX_SCROLL_ATTEMPTS ≤ f + st.scroll_count →
      scanLoop (f + k) st last c feed = scanLoop f st last c feed := by
  induction k with
  | zero => intro f st last c feed _; rfl
  | succ k ih =>
    intro f st last c feed h
    have e : f + (k + 1) = (f + k) + 1 := rfl
    rw [e, scanLoop_succ_stable (f + k) st last c feed (by omega),
      ih f st last c feed h]

/-! ## Claim theorems -/

/-- C1: `prepare_targets(opponents, weakest_first, max_power)` returns
exactly the readings with `available = true` and (when `max_power > 0`)
`power ≤ max_power`, stable-sorted by power — ascending when
`weakest_first`, descending otherwise; an unavailable opponent never
appears; and the registry `{5000, 3000, 8000}` (all available) yields
`[3000, 5000, 8000]` with `max_power = 0` and `[3000]` with
`max_power = 4000`. -/
theorem prepare_targets_schedule_correct (opponents : List Reading)
    (weakest_first : Bool) (max_power : Nat) :
    (prepare_targets_list opponents weakest_first max_power).Perm
      (opponents.filter (fun o =>
        o.available && (if 0 < max_power then decide (o.power ≤ max_power) else true)))
    ∧ (prepare_targets_list opponents weakest_first max_power).Pairwise
        (fun a b => if weakest_first then a.power ≤ b.power else b.power ≤ a.power)
    ∧ (∀ p : Nat,
        (prepare_targets_list opponents weakest_first max_power).filter
          (fun o => o.power == p)
        = (opponents.filter (fun o =>
            o.available &&
            (if 0 < max_power then decide (o.power ≤ max_power) else true))).filter
            (fun o => o.power == p))
    ∧ (∀ o ∈ prepare_targets_list opponents weakest_first max_power,
        o.available = true)
    ∧ (prepare_targets_list [mkReading 5000, mkReading 3000, mkReading 8000]
        true 0).map (fun o => o.power) = [3000, 5000, 8000]
    ∧ (prepare_targets_list [mkReading 5000, mkReading 3000, mkReading 8000]
        true 4000).map (fun o => o.power) = [3000] := by
  refine ⟨?_, ?_, ?_, ?_, ?_, ?_⟩
  · rw [prepare_targets_list_eq]
    exact List.mergeSort_perm _ _
  · rw [prepare_targets_list_eq]
    apply List.Pairwise.imp ?_ (List.sorted_mergeSort
      (powerLE_trans weakest_first) (powerLE_total weakest_first) _)
    intro a b hab
    cases weakest_first <;> simpa [powerLE] using hab
  · intro p
    rw [prepare_targets_list_eq, mergeSort_filter_key]
    intro a b ha hb
    have ha' : a.power = p := by simpa using ha
    have hb' : b.power = p := by simpa using hb
    cases weakest_first <;> simp [powerLE, ha', hb']
  · intro o ho
    rw [prepare_targets_list_eq, List.mem_mergeSort] at ho
    exact (Bool.and_eq_true_iff.mp (List.mem_filter.mp ho).2).1
  · simp [prepare_targets_list, mkReading, List.mergeSort, List.splitInTwo,
      List.merge, powerLE]
  · simp [prepare_targets_list, mkReading, List.mergeSort, List.splitInTwo,
      List.merge, powerLE]

/-- C7: `verify_list_unchanged` returns `true` exactly when the live
power sample intersects the expected set; an empty intersection returns
`false` and clears the list-valid flag, a non-empty one leaves the state
untouched. Concretely, expected `{100,200,300}` with visible `{300,400}`
gives `true`; visible `{500,600}` gives `false` and flags the list
invalid. -/
theorem verify_list_unchanged_spec (st : BattleState)
    (current expected : Finset Nat) :
    ((verify_list_unchanged st current expected).2 = true ↔
      (current ∩ expected).Nonempty)
    ∧ (verify_list_unchanged st current expected).1.list_valid
        = (if (current ∩ expected).Nonempty then st.list_valid else false)
    ∧ ((current ∩ expected).Nonempty →
        (verify_list_unchanged st current expected).1 = st)
    ∧ (verify_list_unchanged st ({300, 400} : Finset Nat) {100, 200, 300}).2 = true
    ∧ (verify_list_unchanged st ({500, 600} : Finset Nat) {100, 200, 300}).2 = false
    ∧ (verify_list_unchanged st ({500, 600} : Finset Nat) {100, 200, 300}).1.list_valid
        = false := by
  simp only [verify_list_unchanged]
  refine ⟨?_, ?_, ?_, ?_, ?_, ?_⟩
  · split_ifs with h <;> simp [h]
  · split_ifs with h <;> simp [h]
  · intro h
    rw [if_pos h]
  · rw [if_pos (by decide)]
  · rw [if_neg (by decide)]
  · rw [if_neg (by decide)]

/-- C3: starting from a well-formed scanner state,
`add_opponents_with_dedup` preserves well-formedness, never appends a
reading whose power is already in the known-powers set (the count of
registered readings of any known power is unchanged), leaves at most one
registered reading per distinct power value, and adding the same reading
(same power) twice leaves exactly one entry for that power. -/
theorem add_opponents_with_dedup_unique_powers (s : ScanState)
    (l : List Reading) (r : Reading) (h : ScanInv s) :
    ScanInv (add_opponents_with_dedup s l).1
    ∧ (∀ p ∈ s.known_powers,
        (add_opponents_with_dedup s l).1.opponents.countP (fun o => o.power == p)
          = s.opponents.countP (fun o => o.power == p))
    ∧ (∀ q : Nat,
        ((add_opponents_with_dedup s l).1.opponents.map (fun o => o.power)).count q ≤ 1)
    ∧ (add_opponents_with_dedup (add_opponents_with_dedup s [r]).1 [r]).1.opponents.countP
        (fun o => o.power == r.power) = 1 := by
  obtain ⟨hop, hkn⟩ := add_opponents_with_dedup_fields s l
  have hfold := foldl_addOneOpp_spec l s 0 h
  have hinv1 : ScanInv (add_opponents_with_dedup s l).1 :=
    ScanInv_of_fields hop hkn hfold.1
  refine ⟨hinv1, ?_, ?_, ?_⟩
  · intro p hp
    rw [hop]
    exact (hfold.2 p hp).2
  · intro q
    exact (List.nodup_iff_count_le_one.mp hinv1.1) q
  · -- the double add of a single reading
    obtain ⟨hop1, hkn1⟩ := add_opponents_with_dedup_fields s [r]
    have hfold1 := foldl_addOneOpp_spec [r] s 0 h
    have hinv_a : ScanInv (add_opponents_with_dedup s [r]).1 :=
      ScanInv_of_fields hop1 hkn1 hfold1.1
    -- after the first add, r.power is known and registered exactly once
    have hknown : r.power ∈ (add_opponents_with_dedup s [r]).1.known_powers := by
      rw [hkn1]
      simp only [List.foldl_cons, List.foldl_nil]
      by_cases hr : r.power ∈ s.known_powers
      · simp [addOneOpp, hr]
      · simp [addOneOpp, hr]
    have hcount1 : (add_opponents_with_dedup s [r]).1.opponents.countP
        (fun o => o.power == r.power) = 1 := by
      rw [countP_power_eq_count_map]
      have hmem : r.power ∈
          ((add_opponents_with_dedup s [r]).1.opponents.map (fun o => o.power)) :=
        (hinv_a.2 r.power).mp hknown
      exact List.count_eq_one_of_mem hinv_a.1 hmem
    obtain ⟨hop2, _⟩ :=
      add_opponents_with_dedup_fields (add_opponents_with_dedup s [r]).1 [r]
    have hfold2 := foldl_addOneOpp_spec [r] (add_opponents_with_dedup s [r]).1 0 hinv_a
    rw [hop2, (hfold2.2 r.power hknown).2]
    exact hcount1

/-- Witness for C3: the fresh scanner is well-formed, and registering the
same power-4000 reading twice leaves exactly one entry for power 4000. -/
theorem add_opponents_with_dedup_unique_powers_witness :
    ScanInv initScanner
    ∧ (add_opponents_with_dedup (add_opponents_with_dedup initScanner
        [mkReading 4000]).1 [mkReading 4000]).1.opponents.countP
        (fun o => o.power == 4000) = 1 := by
  have hinv : ScanInv initScanner := by simp [ScanInv, initScanner]
  exact ⟨hinv,
    (add_opponents_with_dedup_unique_powers initScanner [] (mkReading 4000) hinv).2.2.2⟩

/-- C9, counterexample: `prepare_targets` is not free of side effects —
besides computing the target list it resets the battle-cycle state.
On a battle state with `battles_completed = 3`, the call leaves
`battles_completed = 0 ≠ 3` (and sets `current_target_index = 0`,
`list_valid = true`, overwrites `sorted_targets`). -/
theorem prepare_targets_side_effect_counterexample :
    (prepare_targets ⟨[], 2, 3, ARENA_MAX_BATTLES, false⟩ [] true 0).1.battles_completed = 0
    ∧ (⟨[], 2, 3, ARENA_MAX_BATTLES, false⟩ : BattleState).battles_completed = 3
    ∧ ¬ (prepare_targets ⟨[], 2, 3, ARENA_MAX_BATTLES, false⟩ [] true 0).1
        = ⟨[], 2, 3, ARENA_MAX_BATTLES, false⟩ := by
  refine ⟨rfl, rfl, ?_⟩
  intro h
  have := congrArg BattleState.battles_completed h
  simp [prepare_targets, BattleState.reset] at this

/-- C9, amended: the target list `prepare_targets` returns is a pure
function of `(opponents, weakest_first, max_power)` — independent of the
battle state the method runs on, unchanged under repeated calls against
the same registry, and the input registry itself is passed by value and
never mutated; the method's side effects are confined to the
battle-cycle state (it resets the cursor, battle count and list-valid
flag and stores the new target list), leaving `max_battles` untouched. -/
theorem prepare_targets_result_pure (st st' : BattleState)
    (opponents : List Reading) (weakest_first : Bool) (max_power : Nat) :
    (prepare_targets st opponents weakest_first max_power).2
      = prepare_targets_list opponents weakest_first max_power
    ∧ (prepare_targets st opponents weakest_first max_power).2
      = (prepare_targets st' opponents weakest_first max_power).2
    ∧ (prepare_targets (prepare_targets st opponents weakest_first max_power).1
        opponents weakest_first max_power).2
      = (prepare_targets st opponents weakest_first max_power).2
    ∧ (prepare_targets st opponents weakest_first max_power).1.max_battles
      = st.max_battles
    ∧ (prepare_targets st opponents weakest_first max_power).1.sorted_targets
      = prepare_targets_list opponents weakest_first max_power := by
  refine ⟨rfl, rfl, rfl, rfl, rfl⟩

/-- C2: on the refill path (`empty tokens detected, free refill found`)
`ensure_arena_tokens` returns `'refilled'` but does **not** reset the
tracked scroll index: the source assigns
`self.scanner.current_scroll_position = 0`, an attribute that
`OpponentScanner` never defines and that no navigation code reads, while
`scroll_count` — the index `navigate_to_target` and `attack_next_target`
use — keeps its old value (here 3), contradicting both the claim and the
source's own comment "Reset scroll position". -/
theorem ensure_arena_tokens_refilled_scroll_bug :
    (ensure_arena_tokens { initScanner with scroll_count := 3 }
      { allFailEnv with empty_tokens_found := true, free_tokens_found := true }).1
      = "refilled"
    ∧ (ensure_arena_tokens { initScanner with scroll_count := 3 }
        { allFailEnv with empty_tokens_found := true, free_tokens_found := true }).2.scroll_count
      = 3
    ∧ (ensure_arena_tokens { initScanner with scroll_count := 3 }
        { allFailEnv with empty_tokens_found := true, free_tokens_found := true }).2.current_scroll_position
      = some 0 := by
  refine ⟨rfl, rfl, rfl⟩

/-- C4: when a bottom-band scan yields a non-empty power set identical
to the previous bottom-band set, the scan loop stops, consuming exactly
that one observation, and the tracked scroll index is rolled back by one
— the result state is exactly the entry state `st` (the scroll-down of
the duplicate-triggering step is undone). Concretely: for a feed whose
bottom-band set repeats after N = 2 fresh steps, the scan ends with
`max_scroll_reached = 2` (the duplicate step's index 3 is excluded),
every registered reading carries a scroll index ≤ 2, and the whole feed
of N + 2 observations is consumed (the scan stopped at scroll step
N + 1 = 3); for a feed confirming end-of-list via the confirmation
scroll, the index is rolled back by two (`max_scroll_reached = 0`). -/
theorem scanLoop_end_of_list_detection (f : Nat) (st : ScanState)
    (last : Finset Nat) (c : Nat) (obs : ScanObs) (rest : List ScanObs)
    (hg : st.scroll_count < ARENA_MAX_SCROLL_ATTEMPTS)
    (hne : scan_visible_opponents (scrollDown st) obs ≠ [])
    (hdup : powersOf (scan_visible_opponents (scrollDown st) obs) = last)
    (hlast : last ≠ ∅) :
    scanLoop (f + 1) st last c (obs :: rest) = (st, rest)
    ∧ (run_full_scan initScanner
        [bandObs [12000, 8000], bandObs [15000], bandObs [20000],
         bandObs [20000]]).1.max_scroll_reached = 2
    ∧ ((run_full_scan initScanner
        [bandObs [12000, 8000], bandObs [15000], bandObs [20000],
         bandObs [20000]]).1.opponents.map (fun o => o.power))
        = [12000, 8000, 15000, 20000]
    ∧ ((run_full_scan initScanner
        [bandObs [12000, 8000], bandObs [15000], bandObs [20000],
         bandObs [20000]]).1.opponents.all (fun o => o.scroll_position ≤ 2)) = true
    ∧ ((run_full_scan initScanner
        [bandObs [12000, 8000], bandObs [15000], bandObs [20000],
         bandObs [20000]]).2).length = 0
    ∧ (run_full_scan initScanner
        [bandObs [12000, 8000], bandObs [8000], bandObs [8000]]).1.max_scroll_reached
        = 0 := by
  refine ⟨?_, by decide, by decide, by decide, by decide, by decide⟩
  show scanLoopStep (scanLoop f) st last c (obs :: rest) = (st, rest)
  simp only [scanLoopStep, nextObs]
  rw [if_pos hg]
  rw [if_neg (by simpa [List.isEmpty_iff] using hne)]
  rw [if_pos ⟨hlast, hdup⟩]
  refine Prod.ext ?_ rfl
  cases st
  simp [scrollDown]

/-- Witness for C4: a scanner at scroll index 1 whose previous
bottom-band set was `{20000}` observes `{20000}` again — the loop stops
at once and returns the entry state with the unconsumed feed. -/
theorem scanLoop_end_of_list_detection_witness :
    scanLoop 6 { initScanner with scroll_count := 1 } {20000} 0
      [bandObs [20000]] = ({ initScanner with scroll_count := 1 }, []) :=
  (scanLoop_end_of_list_detection 5 { initScanner with scroll_count := 1 }
    {20000} 0 (bandObs [20000]) [] (by decide) (by decide) (by decide)
    (by decide)).1

/-- C5: `run_full_scan` terminates on every input feed. The scan loop
runs only while the tracked scroll index is below the fixed ceiling
`ARENA_MAX_SCROLL_ATTEMPTS`, and every continuing iteration raises the
index by exactly one, so any fuel of at least
`ARENA_MAX_SCROLL_ATTEMPTS - scroll_count` yields the same (guard-only)
behaviour — the loop is a total function of the feed, independent of the
fuel bound. On return the scanner has performed its fixed
`ARENA_MAX_SCROLL_ATTEMPTS` upward scrolls and reset the tracked scroll
index to 0. -/
theorem run_full_scan_terminates (sc : ScanState) (feed feed' : List ScanObs)
    (f1 f2 : Nat) (st : ScanState) (last : Finset Nat) (c : Nat)
    (h1 : ARENA_MAX_SCROLL_ATTEMPTS ≤ f1 + st.scroll_count)
    (h2 : ARENA_MAX_SCROLL_ATTEMPTS ≤ f2 + st.scroll_count) :
    scanLoop f1 st last c feed' = scanLoop f2 st last c feed'
    ∧ (∀ x : ScanState, ((scrollUp)^[ARENA_MAX_SCROLL_ATTEMPTS] x).scroll_count
        = x.scroll_count - ARENA_MAX_SCROLL_ATTEMPTS)
    ∧ (run_full_scan sc feed).1.scroll_count = 0 := by
  have hup : ∀ (k : Nat) (x : ScanState),
      ((scrollUp)^[k] x).scroll_count = x.scroll_count - k := by
    intro k
    induction k with
    | zero => exact fun x => rfl
    | succ k ih =>
      intro x
      rw [Function.iterate_succ_apply, ih]
      simp [scrollUp]
      omega
  refine ⟨?_, hup ARENA_MAX_SCROLL_ATTEMPTS, rfl⟩
  have key : ∀ g : Nat, ARENA_MAX_SCROLL_ATTEMPTS ≤ g + st.scroll_count →
      scanLoop g st last c feed'
        = scanLoop (ARENA_MAX_SCROLL_ATTEMPTS - st.scroll_count) st last c feed' := by
    intro g hgood
    have e : g = (ARENA_MAX_SCROLL_ATTEMPTS - st.scroll_count)
        + (g - (ARENA_MAX_SCROLL_ATTEMPTS - st.scroll_count)) := by omega
    rw [e, scanLoop_add_fuel _ _ st last c feed' (by omega)]
  rw [key f1 h1, key f2 h2]

/-- Witness for C5: with zero fuel margin and one extra unit of fuel the
loop result agrees, and the scan of the empty feed ends at scroll
index 0. -/
theorem run_full_scan_terminates_witness :
    scanLoop 6 initScanner ∅ 0 [] = scanLoop 7 initScanner ∅ 0 []
    ∧ (∀ x : ScanState, ((scrollUp)^[ARENA_MAX_SCROLL_ATTEMPTS] x).scroll_count
        = x.scroll_count - ARENA_MAX_SCROLL_ATTEMPTS)
    ∧ (run_full_scan initScanner []).1.scroll_count = 0 :=
  run_full_scan_terminates initScanner [] [] 6 7 initScanner ∅ 0
    (by decide) (by decide)

/-- C6, counterexample: the primary labeled path of
`find_all_team_powers` enforces no upper bound. OCR block text
`"Power: 1,234,567"` (with no positioned tokens) produces a reading of
power 1,234,567 > 999,999, refuting the claim that no returned reading
exceeds the domain range. -/
theorem find_all_team_powers_over_limit_counterexample :
    (find_all_team_powers ("Power: 1,234,567".toList) []).map (fun r => r.power)
      = [1234567]
    ∧ ∃ r ∈ find_all_team_powers ("Power: 1,234,567".toList) [],
        999999 < r.power := by
  refine ⟨by decide, ⟨1234567, 50, "Power: 1,234,567".toList⟩, by decide, by decide⟩

/-- C6, amended: every reading returned by `find_all_team_powers` has
power at least 1,000 (the OCR noise floor is enforced in both the
labeled and the fallback path), and every reading produced by the
fallback path (marked by its `'[fallback] '` raw text, the only raw
text starting with `'['`) also satisfies the 999,999 upper bound; the
labeled path enforces no upper bound. -/
theorem find_all_team_powers_power_range (full_text : List Char)
    (results : List PosText) :
    ∀ r ∈ find_all_team_powers full_text results,
      1000 ≤ r.power ∧ (r.raw_text.head? = some '[' → r.power ≤ 999999) := by
  intro r hr
  simp only [find_all_team_powers] at hr
  refine foldl_fallbackStep_good results _ ?_ r hr
  refine foldl_primaryStep_good results _ _ ?_ ?_
  · exact fun m hm => finditerPowerAux_head _ _ m hm
  · intro r' hr'
    simp at hr'

/-- Witness for C6 (amended): the reading parsed from
`"Power: 5,000"` satisfies both bounds. -/
theorem find_all_team_powers_power_range_witness :
    1000 ≤ (⟨5000, 50, "Power: 5,000".toList⟩ : PowerReading).power
    ∧ ((⟨5000, 50, "Power: 5,000".toList⟩ : PowerReading).raw_text.head?
        = some '[' → (⟨5000, 50, "Power: 5,000".toList⟩ : PowerReading).power ≤ 999999) :=
  find_all_team_powers_power_range ("Power: 5,000".toList) []
    ⟨5000, 50, "Power: 5,000".toList⟩ (by decide)

/-- C8: whenever `attack_next_target` classifies the current target as
`'skip'` (navigation failure, battle button unavailable or not found,
Start Fight not found, battle-completion timeout, or Return Arena
failure), the target cursor advances by exactly one and
`battles_completed` is unchanged. -/
theorem attack_next_target_skip_advances (st : BattleState) (sc : ScanState)
    (env : AttackEnv)
    (h : (attack_next_target st sc env).1 = "skip") :
    (attack_next_target st sc env).2.1.current_target_index
      = st.current_target_index + 1
    ∧ (attack_next_target st sc env).2.1.battles_completed
      = st.battles_completed := by
  simp only [attack_next_target] at h ⊢
  by_cases c1 : ¬ st.list_valid = true
  · rw [if_pos c1] at h
    exact absurd (show ("list_invalid" : String) = "skip" from h) (by decide)
  rw [if_neg c1] at h ⊢
  by_cases c2 : st.sorted_targets.length ≤ st.current_target_index
  · rw [if_pos c2] at h
    exact absurd (show ("no_more" : String) = "skip" from h) (by decide)
  rw [if_neg c2] at h ⊢
  by_cases c3 : st.max_battles ≤ st.battles_completed
  · rw [if_pos c3] at h
    exact absurd (show ("max_reached" : String) = "skip" from h) (by decide)
  rw [if_neg c3] at h ⊢
  by_cases c4 : (ensure_arena_tokens sc env).1 = "no_tokens"
  · rw [if_pos c4] at h
    exact absurd (show ("no_tokens" : String) = "skip" from h) (by decide)
  rw [if_neg c4] at h ⊢
  split_ifs at h ⊢ <;>
    first
      | exact ⟨rfl, rfl⟩
      | exact absurd (show ("success" : String) = "skip" from h) (by decide)

/-- Witness for C8: one available target, every verification scan
failing — the attack is classified `skip`, the cursor moves from 0 to 1
and no battle is recorded. -/
theorem attack_next_target_skip_advances_witness :
    (attack_next_target ⟨[mkReading 4000], 0, 0, ARENA_MAX_BATTLES, true⟩
      initScanner allFailEnv).2.1.current_target_index = 0 + 1
    ∧ (attack_next_target ⟨[mkReading 4000], 0, 0, ARENA_MAX_BATTLES, true⟩
        initScanner allFailEnv).2.1.battles_completed = 0 :=
  attack_next_target_skip_advances _ _ _ (by decide)

/-- C10: when the battle-button sample region computed by
`check_battle_available` for the row's inferred y position is empty
(the clamped slice bounds cross, i.e. the region falls outside the
captured frame), the function returns `true`: an opponent whose
availability cannot be pixel-sampled is kept as attackable. -/
theorem check_battle_available_empty_region (frame : Frame) (y_position : Nat)
    (h : min frame.height (y_position + 20) ≤ y_position - 80 ∨
         min frame.width (frame.width * 9 / 10 + 40 / 2) ≤
           frame.width * 9 / 10 - 40 / 2) :
    check_battle_available frame y_position = true := by
  simp only [check_battle_available]
  rw [if_pos h]

/-- Witness for C10: a row inferred at `y = 300` in a frame only 100
pixels tall — the sample rows `[220, 100)` are empty, so the check
returns `true`. -/
theorem check_battle_available_empty_region_witness :
    check_battle_available ⟨100, 500, fun _ _ => false⟩ 300 = true :=
  check_battle_available_empty_region ⟨100, 500, fun _ _ => false⟩ 300
    (by decide)

end Dreamer
